import Mathlib

/-!
Verification development for the dm3 image marshaling layer
(`dm3_image_utils.py`): the bidirectional mapping between a recursively
typed tag tree and a typed multidimensional array with calibrations.

Modelling conventions (shallow embedding):
 - Machine scalars are modelled by their raw little-endian bit patterns:
   an array element of byte width `w` is a `Nat` below `2 ^ (8 * w)`.
   This makes round trips "bit-for-bit" statements (NaN payloads, negative
   zeros and signed values are particular patterns, nothing more).
 - Python floats are modelled as rationals (`ℚ`): every binary float value
   embeds exactly into `ℚ`, and the code under study never performs float
   arithmetic, it only moves the values around.
 - The external binary container codec (`parse_dm_header`) is the spec's
   collaborator with `decode (encode t) = t`; streams are therefore
   identified with the decoded tag tree: `save_image` produces the tree it
   hands to the codec and `load_image` consumes the tree the codec decoded.
 - Fallible Python code (KeyError, AssertionError, ...) is modelled with
   `Except Err` / `Option`.
 - The UTF-16 text decoder used by `fix_strings` (`bytes.decode("utf-16")`)
   is an external library routine; it is passed in as a function
   `dec : List Nat → String` from raw bytes to text.
-/

/-- Error taxonomy for the fallible paths of the module.  The two
`assert` statements of `imagedatadict_to_ndarray` (source lines 79 and 80)
are given the spec's distinct names `typeMismatch` and `pixelDepthMismatch`
so that statements can tell which check fired. -/
inductive Err where
  /-- Python `KeyError` (missing dictionary key or unknown lookup-table key). -/
  | keyError (k : String)
  /-- Failure of `assert dm_image_dtypes[imdict["DataType"]][1] == im.dtype` (line 79). -/
  | typeMismatch
  /-- Failure of `assert imdict['PixelDepth'] == im.dtype.itemsize` (line 80). -/
  | pixelDepthMismatch
  /-- Python `ValueError` from `reshape` when the element count disagrees. -/
  | shapeMismatch
  /-- Python `AttributeError` (`None.dtype`, or `.get` called on a non-dict). -/
  | attrError
  /-- Python `TypeError` (an operation applied to a value of the wrong kind). -/
  | typeErr
  /-- Python `IndexError` (`ImageList[-1]` on an empty list). -/
  | idxError
  /-- Python `ValueError` from `np.frombuffer` when the buffer size is not a
  multiple of the element size. -/
  | bufferSize
  /-- Python `StopIteration` from `next(...)` when no registry entry matches. -/
  | stopIter
  /-- Python `NameError`: source line 191 evaluates the unbound name `n`. -/
  | nameUndefined
  deriving DecidableEq

/-- Native numpy element kinds that appear in this module. -/
inductive DType where
  | int16
  | float32
  | complex64
  | int8
  | int32
  | uint8
  | uint16
  | uint32
  | float64
  | complex128
  deriving DecidableEq

/-- Per-element byte width (`dtype.itemsize` in numpy). -/
def DType.itemsize : DType → Nat
  | .int16 => 2
  | .float32 => 4
  | .complex64 => 8
  | .int8 => 1
  | .int32 => 4
  | .uint8 => 1
  | .uint16 => 2
  | .uint32 => 4
  | .float64 => 8
  | .complex128 => 16

/-- The registry `dm_image_dtypes` (source lines 49-62), in declaration
order: DataType code, display name, native element type.  Note that codes
6, 9 and 14 all map to `np.int8` and code 8 is absent, exactly as in the
source. -/
def dm_image_dtypes : List (Nat × String × DType) :=
  [(1, "int16", .int16),
   (2, "float32", .float32),
   (3, "Complex64", .complex64),
   (6, "uint8", .int8),
   (7, "int32", .int32),
   (9, "int8", .int8),
   (10, "uint16", .uint16),
   (11, "uint32", .uint32),
   (12, "float64", .float64),
   (13, "Complex128", .complex128),
   (14, "Bool", .int8),
   (23, "RGB", .int32)]

/-- Dictionary lookup `dm_image_dtypes[code]`.  The code arrives as a
Python value used as a dict key; the writer only ever produces `int`
codes, which is what is modelled here. -/
def dmGet (code : Int) : Option (String × DType) :=
  (dm_image_dtypes.find? (fun e => (e.1 : Int) == code)).map (fun e => e.2)

/-- The reverse lookup of source line 91:
`next(k for k, v in iter(dm_image_dtypes.items()) if v[1] == nparr.dtype.type)`.
Returns the first code in declaration order whose element type matches;
`none` models the `StopIteration` escape of `next` without a default. -/
def reverseLookup (d : DType) : Option Nat :=
  (dm_image_dtypes.find? (fun e => e.2.2 == d)).map (fun e => e.1)

/-- The table `structarray_to_np_map` (source lines 33-35), keyed by the
pair of per-field primitive typecode characters. -/
def structarray_to_np_map : List ((Char × Char) × DType) :=
  [(('d', 'd'), .complex128),
   (('f', 'f'), .complex64)]

/-- Lookup `structarray_to_np_map[t]`; `none` models the `KeyError`. -/
def structLookup (t : Char × Char) : Option DType :=
  (structarray_to_np_map.find? (fun e => e.1 == t)).map (fun e => e.2)

/-- The inverted table `np_to_structarray_map` (source line 37). -/
def np_to_structarray_map : List (DType × (Char × Char)) :=
  structarray_to_np_map.map (fun e => (e.2, e.1))

/-- Membership test and lookup in `np_to_structarray_map` (source lines
95-96). -/
def structRev (d : DType) : Option (Char × Char) :=
  (np_to_structarray_map.find? (fun e => e.1 == d)).map (fun e => e.2)

/-- Little-endian base-256 serialization of one machine word of `w` bytes,
as performed by `bytes(nparr.data)`. -/
def toBytes : Nat → Nat → List Nat
  | 0, _ => []
  | w + 1, n => n % 256 :: toBytes w (n / 256)

/-- Little-endian base-256 deserialization of one machine word, as
performed by `np.frombuffer`. -/
def fromBytes : List Nat → Nat
  | [] => 0
  | b :: bs => b + 256 * fromBytes bs

/-- Split off exactly `w` leading bytes, failing when fewer are left. -/
def takeExact : Nat → List Nat → Option (List Nat × List Nat)
  | 0, bs => some ([], bs)
  | _ + 1, [] => none
  | w + 1, b :: bs => (takeExact w bs).map (fun p => (b :: p.1, p.2))

/-- Fuel-driven chunking of a byte buffer into `w`-byte words. -/
def chunkFuel (w : Nat) : Nat → List Nat → Option (List Nat)
  | _, [] => some []
  | 0, _ :: _ => none
  | fuel + 1, b :: bs =>
    match takeExact w (b :: bs) with
    | some (word, rest) => (chunkFuel w fuel rest).map (fun l => fromBytes word :: l)
    | none => none

/-- Reinterpret a raw byte buffer as a flat list of `w`-byte machine words
(`np.frombuffer`); `none` models the `ValueError` raised when the buffer
size is not a multiple of the element size. -/
def chunkWords (w : Nat) (bs : List Nat) : Option (List Nat) :=
  chunkFuel w bs.length bs

/-- A numpy ndarray: element kind, native (slowest-axis-first) shape, and
the flat elements in row-major storage order, each element being its raw
bit pattern. -/
structure Ndarray where
  dtype : DType
  shape : List Nat
  data : List Nat
  deriving DecidableEq

/-- Well-formedness of an `Ndarray`: the flat element count matches the
shape and every element fits in the element byte width. -/
def Ndarray.wf (a : Ndarray) : Prop :=
  a.data.length = a.shape.prod ∧ ∀ x ∈ a.data, x < 2 ^ (8 * a.dtype.itemsize)

/-- The generic tag tree decoded from / encoded into the binary container:
mappings with insertion-ordered unique keys, sequences, scalars, the
`array.array` payload (`rawArray`, holding typed element values), and the
`structarray` payload (`structArr`, holding field typecodes plus a raw
byte buffer of interleaved records). -/
inductive TagNode where
  | int (i : Int)
  | float (q : ℚ)
  | str (s : String)
  | bool (b : Bool)
  | rawArray (tc : DType) (vals : List Nat)
  | structArr (tcs : List Char) (raw : List Nat)
  | mapping (es : List (String × TagNode))
  | sequence (es : List TagNode)

/-- Python dict lookup over insertion-ordered entries (keys are unique in
any tree produced by the Python code, so first match is faithful). -/
def lookupKey : List (String × TagNode) → String → Option TagNode
  | [], _ => none
  | (k, v) :: rest, key => if k = key then some v else lookupKey rest key

mutual

/-- The metadata normalizer `fix_strings` (source lines 131-148): rebuild
mappings recursing into every value except those under a key literally
named "Data"; rebuild sequences elementwise; decode any `array.array`
reached by the recursion to text via the external UTF-16 decoder `dec`
applied to the array's machine bytes (`d.tostring().decode("utf-16")`);
pass every other value through unchanged. -/
def fix_strings (dec : List Nat → String) : TagNode → TagNode
  | .mapping es => .mapping (fixEntries dec es)
  | .sequence es => .sequence (fixSeq dec es)
  | .rawArray tc vals => .str (dec (vals.flatMap (toBytes tc.itemsize)))
  | t => t

/-- Mapping part of `fix_strings`: values under the key "Data" are kept
verbatim, every other value is recursed into. -/
def fixEntries (dec : List Nat → String) : List (String × TagNode) → List (String × TagNode)
  | [] => []
  | (k, v) :: rest =>
    (if k = "Data" then (k, v) else (k, fix_strings dec v)) :: fixEntries dec rest

/-- Sequence part of `fix_strings`: every element is recursed into. -/
def fixSeq (dec : List Nat → String) : List TagNode → List TagNode
  | [] => []
  | v :: rest => fix_strings dec v :: fixSeq dec rest

end

/-- Decode of the `Data` child (source lines 69-77).  `.ok none` means the
value was neither an `array.array` nor a `structarray`, so `im` stays
`None` (the `AttributeError` then fires later, at the first use of
`im.dtype`).  A `structarray` is decoded through `structarray_to_np_map`
and `np.frombuffer`. -/
def decodeData : TagNode → Except Err (Option (DType × List Nat))
  | .rawArray tc vals => .ok (some (tc, vals))
  | .structArr tcs raw =>
    match tcs with
    | [a, b] =>
      match structLookup (a, b) with
      | some d =>
        match chunkWords d.itemsize raw with
        | some vals => .ok (some (d, vals))
        | none => .error .bufferSize
      | none => .error (.keyError "structarray_to_np_map")
    | _ => .error (.keyError "structarray_to_np_map")
  | _ => .ok none

/-- A tag value used as an `int`-keyed dictionary key.  Python numeric
keys compare across kinds (`True` hashes as `1`, `2.0` as `2`); keys of
other kinds simply miss every entry of `dm_image_dtypes`. -/
def tagKeyInt : TagNode → Option Int
  | .int i => some i
  | .bool b => some (if b then 1 else 0)
  | .float q => if q.den = 1 then some q.num else none
  | _ => none

/-- Python `==` between a tag scalar and a nonnegative machine integer
(used for the `PixelDepth` assertion).  Numeric kinds compare by value;
every other kind compares unequal. -/
def pyEqNat : TagNode → Nat → Bool
  | .int i, n => i == (n : Int)
  | .float q, n => q == (n : ℚ)
  | .bool b, n => (if b then (1 : Int) else 0) == (n : Int)
  | _, _ => false

/-- Read the declared `Dimensions` list as machine integers.  `np.reshape`
demands integer extents; the negative-extent inference of numpy (`-1`) is
not exercised by this module and is not modelled. -/
def dimsToNat : List TagNode → Option (List Nat)
  | [] => some []
  | .int i :: rest =>
    if 0 ≤ i then (dimsToNat rest).map (fun l => i.toNat :: l) else none
  | _ :: _ => none

/-- The function `imagedatadict_to_ndarray` (source lines 65-81): decode
the `Data` child, check the decoded element type against the registry
entry for the declared `DataType` (line 79), check the declared
`PixelDepth` against the element byte width (line 80), then reshape the
flat array to the reverse of the declared `Dimensions` (line 81). -/
def imagedatadict_to_ndarray (imdict : TagNode) : Except Err Ndarray :=
  match imdict with
  | .mapping es =>
    match lookupKey es "Data" with
    | none => .error (.keyError "Data")
    | some arr =>
      match decodeData arr with
      | .error e => .error e
      | .ok im =>
        match lookupKey es "DataType" with
        | none => .error (.keyError "DataType")
        | some dtn =>
          match tagKeyInt dtn with
          | none => .error (.keyError "DataType")
          | some code =>
            match dmGet code with
            | none => .error (.keyError "DataType")
            | some (_, tdt) =>
              match im with
              | none => .error .attrError
              | some (dt, vals) =>
                if tdt = dt then
                  match lookupKey es "PixelDepth" with
                  | none => .error (.keyError "PixelDepth")
                  | some pd =>
                    if pyEqNat pd dt.itemsize then
                      match lookupKey es "Dimensions" with
                      | none => .error (.keyError "Dimensions")
                      | some (.sequence dims) =>
                        match dimsToNat dims with
                        | none => .error .typeErr
                        | some ds =>
                          if ds.reverse.prod = vals.length then
                            .ok ⟨dt, ds.reverse, vals⟩
                          else .error .shapeMismatch
                      | some _ => .error .typeErr
                    else .error .pixelDepthMismatch
                else .error .typeMismatch
  | _ => .error .typeErr

/-- The `Data` node built by `ndarray_to_imagedatadict` (source lines
95-100): complex kinds are serialized to a `structarray` holding the raw
machine bytes (`bytes(nparr.data)`), every other kind to an `array.array`
of the flattened element values. -/
def mkDataNode (dt : DType) (data : List Nat) : TagNode :=
  match structRev dt with
  | some tcs => .structArr [tcs.1, tcs.2] (data.flatMap (toBytes dt.itemsize))
  | none => .rawArray dt data

/-- The function `ndarray_to_imagedatadict` (source lines 84-101),
returning the entries of the ImageData dictionary in insertion order:
`DataType` (the first registry code matching the element type),
`PixelDepth` (the element byte width), `Dimensions` (the reversed shape),
and `Data`.  `none` models the `StopIteration` escape when no registry
code matches the element type. -/
def ndarray_to_imagedatadict (a : Ndarray) : Option (List (String × TagNode)) :=
  match reverseLookup a.dtype with
  | none => none
  | some code =>
    some [("DataType", .int code),
          ("PixelDepth", .int a.dtype.itemsize),
          ("Dimensions", .sequence (a.shape.reverse.map (fun n : Nat => TagNode.int (n : Int)))),
          ("Data", mkDataNode a.dtype a.data)]

/-- A caller-supplied calibration object (external collaborator class with
`offset`, `scale` and `units` attributes). -/
structure Calibration where
  offset : ℚ
  scale : ℚ
  units : String
  deriving DecidableEq

/-- One written calibration dictionary (source lines 202-205 and 208-211):
`Origin`, `Scale`, `Units` in insertion order. -/
def calNode (c : Calibration) : TagNode :=
  .mapping [("Origin", .float c.offset), ("Scale", .float c.scale), ("Units", .str c.units)]

/-- The `file` argument of `save_image`: a path string or an open binary
stream. -/
inductive FileArg where
  | path (s : String)
  | stream

/-- The function `save_image` (source lines 184-222).  The string-path
branch (lines 189-191) executes `return save_image(n, f)` where `n` is an
unbound name, so it raises `NameError` for every input.  The stream branch
builds the single-image document tree handed to the container codec:
dimensional calibrations are injected in reversed axis order only when
the supplied count is nonzero and equals the array rank, an intensity
calibration is injected when present (truthy), and the fixed
ImageSourceList / DocumentObjectList / display scaffolding is appended. -/
def save_image (data : Ndarray) (dimensional_calibrations : List Calibration)
    (intensity_calibration : Option Calibration) (metadata : TagNode) :
    FileArg → Except Err TagNode
  | .path _ => .error .nameUndefined
  | .stream =>
    match ndarray_to_imagedatadict data with
    | none => .error .stopIter
    | some ddict =>
      let dimPart : List (String × TagNode) :=
        if dimensional_calibrations ≠ [] ∧
            dimensional_calibrations.length = data.shape.length then
          [("Dimension", .sequence (dimensional_calibrations.reverse.map calNode))]
        else []
      let briPart : List (String × TagNode) :=
        match intensity_calibration with
        | some ic => [("Brightness", calNode ic)]
        | none => []
      let calPart : List (String × TagNode) :=
        if (dimPart ++ briPart).isEmpty then []
        else [("Calibrations", .mapping (dimPart ++ briPart))]
      .ok (.mapping
        [("ImageList", .sequence [.mapping
            [("ImageData", .mapping (ddict ++ calPart)), ("ImageTags", metadata)]]),
         ("ImageSourceList", .sequence [.mapping
            [("ClassName", .str "ImageSource:Simple"),
             ("Id", .sequence [.int 0]), ("ImageRef", .int 0)]]),
         ("DocumentObjectList", .sequence [.mapping
            [("ImageSource", .int 0), ("AnnotationType", .int 20)]]),
         ("Image Behavior", .mapping [("ViewDisplayID", .int 8)]),
         ("InImageMode", .int 1)])

/-- Python truthiness of a tag value: zero numbers, empty strings and
empty containers are falsy; a `structarray` is a plain object and is
always truthy. -/
def pyTruthy : TagNode → Bool
  | .int i => i != 0
  | .float q => q != 0
  | .str s => decide (s ≠ "")
  | .bool b => b
  | .rawArray _ vals => decide (vals ≠ [])
  | .structArr _ _ => true
  | .mapping es => !es.isEmpty
  | .sequence es => !es.isEmpty

/-- Python `float(...)` applied to a tag scalar.  Numeric-string parsing
is not exercised by this module and is not modelled; non-numeric kinds
raise `TypeError`. -/
def pyFloat : TagNode → Except Err ℚ
  | .int i => .ok i
  | .float q => .ok q
  | .bool b => .ok (if b then 1 else 0)
  | _ => .error .typeErr

/-- The legacy-voltage extraction of `load_image` (source lines 174-180):
`ImageTags.get('ImageScanned', {}).get('EHT', {})`, and when that value is
truthy the two extra property entries holding `float(voltage)`.  A
non-dict value in the `.get` chain raises `AttributeError`. -/
def voltageStep (imageTags : TagNode) : Except Err (List (String × TagNode)) :=
  match imageTags with
  | .mapping mts =>
    match (lookupKey mts "ImageScanned").getD (.mapping []) with
    | .mapping ss =>
      let voltage := (lookupKey ss "EHT").getD (.mapping [])
      if pyTruthy voltage then
        match pyFloat voltage with
        | .ok v =>
          .ok [("autostem", .mapping [("high_tension_v", .float v)]),
               ("extra_high_tension", .float v)]
        | .error e => .error e
      else .ok []
    | _ => .error .attrError
  | _ => .error .attrError

/-- The properties dictionary of `load_image` (source lines 173-180):
empty without an `ImageTags` child, otherwise `imported_properties`
holding the subtree followed by the legacy voltage entries. -/
def buildProperties (its : List (String × TagNode)) : Except Err (List (String × TagNode)) :=
  match lookupKey its "ImageTags" with
  | some mt =>
    match voltageStep mt with
    | .ok parts => .ok (("imported_properties", mt) :: parts)
    | .error e => .error e
  | none => .ok []

/-- Extraction of the `Dimension` calibration entries in stored order
(source lines 168-169): each entry must be a dictionary carrying `Origin`,
`Scale` and `Units`, whose raw values are returned untouched. -/
def extractDims : List TagNode → Except Err (List (TagNode × TagNode × TagNode))
  | [] => .ok []
  | .mapping ds :: rest =>
    match lookupKey ds "Origin", lookupKey ds "Scale", lookupKey ds "Units" with
    | some o, some s, some u =>
      match extractDims rest with
      | .ok l => .ok ((o, s, u) :: l)
      | .error e => .error e
    | _, _, _ => .error (.keyError "Origin")
  | _ :: _ => .error .typeErr

/-- The value returned by `load_image`: the array, the axis calibrations
reversed into native order, the intensity calibration triple, the
optional title, and the properties dictionary. -/
structure LoadResult where
  data : Ndarray
  calibrations : List (TagNode × TagNode × TagNode)
  intensity : TagNode × TagNode × TagNode
  title : Option TagNode
  properties : List (String × TagNode)

/-- The function `load_image` (source lines 150-181) applied to the tag
tree decoded by the container codec: normalize strings, select the last
`ImageList` entry, marshal its `ImageData` to an array, extract the
calibrations (returned reversed into native axis order), the intensity
calibration (with defaults `0.0`, `1.0`, `""`), the optional `Name`, and
the properties. -/
def load_image (dec : List Nat → String) (tree : TagNode) : Except Err LoadResult :=
  match fix_strings dec tree with
  | .mapping es =>
    match lookupKey es "ImageList" with
    | none => .error (.keyError "ImageList")
    | some (.sequence entries) =>
      match entries.getLast? with
      | none => .error .idxError
      | some (.mapping its) =>
        match lookupKey its "ImageData" with
        | none => .error (.keyError "ImageData")
        | some (.mapping ids) =>
          match imagedatadict_to_ndarray (.mapping ids) with
          | .error e => .error e
          | .ok data =>
            match (lookupKey ids "Calibrations").getD (.mapping []) with
            | .mapping cts =>
              match (lookupKey cts "Dimension").getD (.sequence []) with
              | .sequence dims =>
                match extractDims dims with
                | .error e => .error e
                | .ok calibrations =>
                  match (lookupKey cts "Brightness").getD (.mapping []) with
                  | .mapping brs =>
                    match buildProperties its with
                    | .error e => .error e
                    | .ok properties =>
                      .ok ⟨data, calibrations.reverse,
                           ((lookupKey brs "Origin").getD (.float 0),
                            (lookupKey brs "Scale").getD (.float 1),
                            (lookupKey brs "Units").getD (.str "")),
                           lookupKey its "Name", properties⟩
                  | _ => .error .attrError
              | _ => .error .typeErr
            | _ => .error .attrError
        | some _ => .error .typeErr
      | some _ => .error .typeErr
    | some _ => .error .typeErr
  | _ => .error .typeErr

/-- The element types that appear in the registry (an array of any of
these is saveable). -/
def registryDtypes : List DType := dm_image_dtypes.map (fun e => e.2.2)

/-- The calibration triple as `load_image` returns it: the raw tag values
`(Origin, Scale, Units)` of one written calibration. -/
def calTriple (c : Calibration) : TagNode × TagNode × TagNode :=
  (.float c.offset, .float c.scale, .str c.units)

/-- The intensity triple `load_image` recovers for a given saved intensity
calibration: the written values when one was supplied, the documented
defaults `(0.0, 1.0, "")` otherwise. -/
def intensityTriple : Option Calibration → TagNode × TagNode × TagNode
  | some c => calTriple c
  | none => (.float 0, .float 1, .str "")

/-- Observer navigating a saved document to the `Dimension` calibration
list of the first `ImageList` entry, when present. -/
def docDimensionNode (doc : TagNode) : Option TagNode :=
  match doc with
  | .mapping es =>
    match lookupKey es "ImageList" with
    | some (.sequence (TagNode.mapping its :: _)) =>
      match lookupKey its "ImageData" with
      | some (.mapping ids) =>
        match lookupKey ids "Calibrations" with
        | some (.mapping cs) => lookupKey cs "Dimension"
        | _ => none
      | _ => none
    | _ => none
  | _ => none

/-- The `ImageTags` subtree used by the voltage claims: a metadata
dictionary carrying `ImageScanned.EHT`. -/
def ehtTags (v : TagNode) : TagNode :=
  .mapping [("ImageScanned", .mapping [("EHT", v)])]

/-- A minimal well-formed document around a given `ImageTags` subtree: one
`ImageList` entry holding a one-element `int8` image. -/
def minimalDoc (mt : TagNode) : TagNode :=
  .mapping [("ImageList", .sequence [.mapping
    [("ImageData", .mapping
       [("DataType", .int 9), ("PixelDepth", .int 1),
        ("Dimensions", .sequence [.int 1]), ("Data", .rawArray .int8 [0])]),
     ("ImageTags", mt)]])]

/-- The document tree `save_image` builds when the dimensional
calibrations are injected (count nonzero and equal to the rank), spelled
out for reasoning about the write path. -/
def savedDoc (code : Nat) (dt : DType) (shape data : List Nat)
    (cals : List Calibration) (ic : Option Calibration) (md : TagNode) : TagNode :=
  .mapping
    [("ImageList", .sequence [.mapping
        [("ImageData", .mapping
           ([("DataType", .int (code : Int)),
             ("PixelDepth", .int (dt.itemsize : Int)),
             ("Dimensions", .sequence (shape.reverse.map (fun n : Nat => TagNode.int (n : Int)))),
             ("Data", mkDataNode dt data)] ++
            [("Calibrations", .mapping
               ([("Dimension", .sequence (cals.reverse.map calNode))] ++
                (match ic with
                 | some c => [("Brightness", calNode c)]
                 | none => [])))])),
         ("ImageTags", md)]]),
     ("ImageSourceList", .sequence [.mapping
        [("ClassName", .str "ImageSource:Simple"),
         ("Id", .sequence [.int 0]), ("ImageRef", .int 0)]]),
     ("DocumentObjectList", .sequence [.mapping
        [("ImageSource", .int 0), ("AnnotationType", .int 20)]]),
     ("Image Behavior", .mapping [("ViewDisplayID", .int 8)]),
     ("InImageMode", .int 1)]

/-! Helper lemmas about the byte-level serialization. -/

theorem toBytes_length (w n : Nat) : (toBytes w n).length = w := by
  induction w generalizing n with
  | zero => rfl
  | succ w ih => simp [toBytes, ih]

theorem fromBytes_toBytes (w n : Nat) (h : n < 256 ^ w) :
    fromBytes (toBytes w n) = n := by
  induction w generalizing n with
  | zero =>
    simp [toBytes, fromBytes]
    omega
  | succ w ih =>
    have hd : n / 256 < 256 ^ w := by
      rw [Nat.div_lt_iff_lt_mul (by norm_num)]
      calc n < 256 ^ (w + 1) := h
        _ = 256 ^ w * 256 := by ring
    simp [toBytes, fromBytes, ih (n / 256) hd]
    omega

theorem takeExact_append (l r : List Nat) : takeExact l.length (l ++ r) = some (l, r) := by
  induction l with
  | nil => rfl
  | cons b bs ih => simp [takeExact, ih]

theorem chunkFuel_flat (w : Nat) (hw : 0 < w) (xs : List Nat)
    (hx : ∀ x ∈ xs, x < 256 ^ w) :
    ∀ fuel, (xs.flatMap (toBytes w)).length ≤ fuel →
      chunkFuel w fuel (xs.flatMap (toBytes w)) = some xs := by
  induction xs with
  | nil =>
    intro fuel _
    simp [chunkFuel]
  | cons x xs ih =>
    intro fuel hfuel
    have hflat : (x :: xs).flatMap (toBytes w) = toBytes w x ++ xs.flatMap (toBytes w) := by
      simp
    rw [hflat] at hfuel ⊢
    have hlen : (toBytes w x ++ xs.flatMap (toBytes w)).length =
        w + (xs.flatMap (toBytes w)).length := by
      simp [toBytes_length]
    obtain ⟨fuel2, rfl⟩ : ∃ fuel2, fuel = fuel2 + 1 := by
      refine ⟨fuel - 1, ?_⟩
      omega
    obtain ⟨v, rfl⟩ : ∃ v, w = v + 1 := ⟨w - 1, by omega⟩
    have hcons : toBytes (v + 1) x ++ xs.flatMap (toBytes (v + 1)) =
        x % 256 :: (toBytes v (x / 256) ++ xs.flatMap (toBytes (v + 1))) := by
      simp [toBytes]
    rw [hcons]
    have htake : takeExact (v + 1)
        (x % 256 :: (toBytes v (x / 256) ++ xs.flatMap (toBytes (v + 1)))) =
        some (toBytes (v + 1) x, xs.flatMap (toBytes (v + 1))) := by
      have := takeExact_append (toBytes (v + 1) x) (xs.flatMap (toBytes (v + 1)))
      rw [toBytes_length] at this
      simpa [toBytes] using this
    have hrec : chunkFuel (v + 1) fuel2 (xs.flatMap (toBytes (v + 1))) = some xs := by
      apply ih (fun y hy => hx y (List.mem_cons_of_mem _ hy))
      rw [hlen] at hfuel
      omega
    simp only [chunkFuel, htake, hrec, Option.map_some']
    rw [fromBytes_toBytes (v + 1) x (hx x (List.mem_cons_self x xs))]

theorem chunkWords_flat (w : Nat) (hw : 0 < w) (xs : List Nat)
    (hx : ∀ x ∈ xs, x < 256 ^ w) :
    chunkWords w (xs.flatMap (toBytes w)) = some xs :=
  chunkFuel_flat w hw xs hx _ le_rfl

/-! Helper lemmas about `fix_strings`. -/

theorem fixSeq_map_int (dec : List Nat → String) (l : List Nat) :
    fixSeq dec (l.map (fun n : Nat => TagNode.int (n : Int))) =
      l.map (fun n : Nat => TagNode.int (n : Int)) := by
  induction l with
  | nil => rfl
  | cons a l ih => simp [fixSeq, fix_strings, ih]

theorem fix_calNode (dec : List Nat → String) (c : Calibration) :
    fix_strings dec (calNode c) = calNode c := rfl

theorem fixSeq_map_calNode (dec : List Nat → String) (l : List Calibration) :
    fixSeq dec (l.map calNode) = l.map calNode := by
  induction l with
  | nil => rfl
  | cons c l ih => simp [fixSeq, fix_calNode, ih]

theorem fixSeq_append (dec : List Nat → String) (l r : List TagNode) :
    fixSeq dec (l ++ r) = fixSeq dec l ++ fixSeq dec r := by
  induction l with
  | nil => rfl
  | cons v l ih => simp [fixSeq, ih]

theorem fixEntries_append (dec : List Nat → String) (l r : List (String × TagNode)) :
    fixEntries dec (l ++ r) = fixEntries dec l ++ fixEntries dec r := by
  induction l with
  | nil => rfl
  | cons kv l ih =>
    obtain ⟨k, v⟩ := kv
    simp [fixEntries, ih]

/-! Helper lemmas about the marshaling pipeline. -/

theorem dimsToNat_map_int (l : List Nat) :
    dimsToNat (l.map (fun n : Nat => TagNode.int (n : Int))) = some l := by
  induction l with
  | nil => rfl
  | cons a l ih => simp [dimsToNat, ih, Int.natCast_nonneg]

theorem extractDims_map_calNode (l : List Calibration) :
    extractDims (l.map calNode) = .ok (l.map calTriple) := by
  induction l with
  | nil => rfl
  | cons c l ih => simp [extractDims, calNode, lookupKey, ih, calTriple]

/-- First-match characterization of `List.find?`: it returns exactly the
first element of the list satisfying the predicate. -/
theorem find?_first_iff {α : Type} (p : α → Bool) (l : List α) (a : α) :
    l.find? p = some a ↔
      p a = true ∧ ∃ l1 l2, l = l1 ++ a :: l2 ∧ ∀ x ∈ l1, p x = false := by
  induction l with
  | nil => simp
  | cons b bs ih =>
    by_cases hb : p b = true
    · rw [List.find?_cons_of_pos _ hb]
      constructor
      · rintro h
        injection h with h
        subst h
        exact ⟨hb, [], bs, rfl, by simp⟩
      · rintro ⟨ha, l1, l2, heq, hall⟩
        cases l1 with
        | nil =>
          injection heq with h1 _
          rw [h1]
        | cons c cs =>
          injection heq with h1 _
          exfalso
          have hf := hall c (List.mem_cons_self c cs)
          rw [← h1] at hf
          rw [hf] at hb
          exact Bool.noConfusion hb
    · rw [List.find?_cons_of_neg _ hb]
      rw [ih]
      constructor
      · rintro ⟨ha, l1, l2, heq, hall⟩
        refine ⟨ha, b :: l1, l2, by simp [heq], ?_⟩
        intro x hx
        rcases List.mem_cons.mp hx with h | h
        · rw [h]
          exact Bool.not_eq_true _ ▸ (by simpa using hb)
        · exact hall x h
      · rintro ⟨ha, l1, l2, heq, hall⟩
        cases l1 with
        | nil =>
          injection heq with h1 _
          exfalso
          rw [← h1] at ha
          exact hb ha
        | cons c cs =>
          injection heq with h1 h2
          exact ⟨ha, cs, l2, h2, fun x hx => hall x (List.mem_cons_of_mem _ hx)⟩

/-- Variant of `dimsToNat_map_int` in the reversed form left behind by
`simp`'s `List.map_reverse` normalization. -/
theorem dimsToNat_map_int_rev (l : List Nat) :
    dimsToNat ((l.map (fun n : Nat => TagNode.int (n : Int))).reverse) = some l.reverse := by
  rw [← List.map_reverse]
  exact dimsToNat_map_int l.reverse

/-- Core inversion: `imagedatadict_to_ndarray` undoes
`ndarray_to_imagedatadict` for any array whose element type has a
consistent registry entry and whose `Data` node decodes back. -/
theorem fromTag_toTag (dt : DType) (code : Nat) (shape data : List Nat)
    (es : List (String × TagNode))
    (h1 : reverseLookup dt = some code)
    (h2 : (dmGet (code : Int)).map (fun e => e.2) = some dt)
    (h3 : decodeData (mkDataNode dt data) = .ok (some (dt, data)))
    (h4 : data.length = shape.prod)
    (hes : ndarray_to_imagedatadict ⟨dt, shape, data⟩ = some es) :
    imagedatadict_to_ndarray (.mapping es) = .ok ⟨dt, shape, data⟩ := by
  rw [ndarray_to_imagedatadict] at hes
  simp only [h1] at hes
  obtain ⟨⟨nm, dt2⟩, hg, hdt2⟩ := Option.map_eq_some'.mp h2
  simp only at hdt2
  subst hdt2
  obtain rfl : _ = es := Option.some_inj.mp hes
  simp [imagedatadict_to_ndarray, lookupKey, h3, tagKeyInt, hg, pyEqNat,
    dimsToNat_map_int, dimsToNat_map_int_rev, List.reverse_reverse, h4]

theorem fixSeq_map_int_rev (dec : List Nat → String) (l : List Nat) :
    fixSeq dec ((l.map (fun n : Nat => TagNode.int (n : Int))).reverse) =
      (l.map (fun n : Nat => TagNode.int (n : Int))).reverse := by
  rw [← List.map_reverse]
  exact fixSeq_map_int dec l.reverse

theorem fixSeq_map_calNode_rev (dec : List Nat → String) (l : List Calibration) :
    fixSeq dec ((l.map calNode).reverse) = (l.map calNode).reverse := by
  rw [← List.map_reverse]
  exact fixSeq_map_calNode dec l.reverse

theorem extractDims_map_calNode_rev (l : List Calibration) :
    extractDims ((l.map calNode).reverse) = .ok ((l.map calTriple).reverse) := by
  rw [← List.map_reverse, ← List.map_reverse]
  exact extractDims_map_calNode l.reverse

/-- Variant of `fromTag_toTag` tolerating extra entries (such as
`Calibrations`) appended after the four marshaled ones. -/
theorem fromTag_entries (dt : DType) (code : Nat) (shape data : List Nat)
    (extra : List (String × TagNode))
    (h2 : (dmGet (code : Int)).map (fun e => e.2) = some dt)
    (h3 : decodeData (mkDataNode dt data) = .ok (some (dt, data)))
    (h4 : data.length = shape.prod) :
    imagedatadict_to_ndarray (.mapping
      ([("DataType", TagNode.int (code : Int)),
        ("PixelDepth", TagNode.int (dt.itemsize : Int)),
        ("Dimensions", TagNode.sequence ((shape.map (fun n : Nat => TagNode.int (n : Int))).reverse)),
        ("Data", mkDataNode dt data)] ++ extra)) = .ok ⟨dt, shape, data⟩ := by
  obtain ⟨⟨nm, dt2⟩, hg, hdt2⟩ := Option.map_eq_some'.mp h2
  simp only at hdt2
  subst hdt2
  simp [imagedatadict_to_ndarray, lookupKey, h3, tagKeyInt, hg, pyEqNat,
    dimsToNat_map_int, dimsToNat_map_int_rev, List.reverse_reverse, h4]

/-- The write path: with a registry-supported element type and a
calibration list matching the rank, `save_image` succeeds and produces
exactly `savedDoc`. -/
theorem save_eq_savedDoc (dt : DType) (code : Nat) (shape data : List Nat)
    (cals : List Calibration) (ic : Option Calibration) (md : TagNode)
    (h1 : reverseLookup dt = some code)
    (h5 : cals.length = shape.length)
    (hcals : cals ≠ []) :
    save_image ⟨dt, shape, data⟩ cals ic md .stream =
      .ok (savedDoc code dt shape data cals ic md) := by
  have hdd : ndarray_to_imagedatadict ⟨dt, shape, data⟩ =
      some [("DataType", TagNode.int (code : Int)),
            ("PixelDepth", TagNode.int (dt.itemsize : Int)),
            ("Dimensions", TagNode.sequence (shape.reverse.map (fun n : Nat => TagNode.int (n : Int)))),
            ("Data", mkDataNode dt data)] := by
    simp [ndarray_to_imagedatadict, h1]
  rcases ic with _ | c
  · simp [save_image, hdd, hcals, h5, savedDoc]
  · simp [save_image, hdd, hcals, h5, savedDoc]

/-- The read path applied to a saved document: `load_image` recovers the
array, the calibrations in native order, the intensity triple, no title,
and the properties built from the metadata. -/
theorem load_savedDoc (dec : List Nat → String) (dt : DType) (code : Nat)
    (shape data : List Nat) (cals : List Calibration) (ic : Option Calibration)
    (md : TagNode) (parts : List (String × TagNode))
    (h2 : (dmGet (code : Int)).map (fun e => e.2) = some dt)
    (h3 : decodeData (mkDataNode dt data) = .ok (some (dt, data)))
    (h4 : data.length = shape.prod)
    (h7 : voltageStep (fix_strings dec md) = .ok parts) :
    load_image dec (savedDoc code dt shape data cals ic md) =
      .ok ⟨⟨dt, shape, data⟩, cals.map calTriple, intensityTriple ic, none,
        ("imported_properties", fix_strings dec md) :: parts⟩ := by
  rcases ic with _ | c
  · have hft := fromTag_entries dt code shape data
      [("Calibrations", TagNode.mapping
        [("Dimension", TagNode.sequence ((cals.map calNode).reverse))])] h2 h3 h4
    simp only [List.cons_append, List.nil_append] at hft
    simp [load_image, savedDoc, fix_strings, fixEntries, fixSeq, lookupKey,
      fixSeq_map_int_rev, fixSeq_map_calNode_rev, fix_calNode, hft,
      extractDims_map_calNode_rev, List.reverse_reverse,
      buildProperties, h7, intensityTriple, calTriple]
  · have hft := fromTag_entries dt code shape data
      [("Calibrations", TagNode.mapping
        [("Dimension", TagNode.sequence ((cals.map calNode).reverse)),
         ("Brightness", TagNode.mapping
           [("Origin", TagNode.float c.offset), ("Scale", TagNode.float c.scale),
            ("Units", TagNode.str c.units)])])] h2 h3 h4
    simp only [List.cons_append, List.nil_append] at hft
    simp [load_image, savedDoc, fix_strings, fixEntries, fixSeq, lookupKey,
      fixSeq_map_int_rev, fixSeq_map_calNode_rev, fix_calNode, hft,
      extractDims_map_calNode_rev, List.reverse_reverse,
      buildProperties, h7, intensityTriple, calTriple, calNode]

theorem pow256_eq (w : Nat) : (256 : Nat) ^ w = 2 ^ (8 * w) := by
  rw [show (256 : Nat) = 2 ^ 8 by norm_num, ← pow_mul]

/-- Decode-of-encode for the complex64 structured-array path. -/
theorem decode_mk_complex64 (data : List Nat) (hel : ∀ x ∈ data, x < 2 ^ 64) :
    decodeData (mkDataNode .complex64 data) = .ok (some (.complex64, data)) := by
  show decodeData (.structArr ['f', 'f'] (data.flatMap (toBytes 8))) = _
  have hch : chunkWords 8 (data.flatMap (toBytes 8)) = some data := by
    apply chunkWords_flat 8 (by norm_num) data
    intro x hx
    rw [pow256_eq]
    exact hel x hx
  simp [decodeData, structLookup, structarray_to_np_map, DType.itemsize, hch]

/-- Decode-of-encode for the complex128 structured-array path. -/
theorem decode_mk_complex128 (data : List Nat) (hel : ∀ x ∈ data, x < 2 ^ 128) :
    decodeData (mkDataNode .complex128 data) = .ok (some (.complex128, data)) := by
  show decodeData (.structArr ['d', 'd'] (data.flatMap (toBytes 16))) = _
  have hch : chunkWords 16 (data.flatMap (toBytes 16)) = some data := by
    apply chunkWords_flat 16 (by norm_num) data
    intro x hx
    rw [pow256_eq]
    exact hel x hx
  simp [decodeData, structLookup, structarray_to_np_map, DType.itemsize, hch]

/-- Full pipeline round trip for one supported element type, given its
registry facts. -/
theorem load_save (dec : List Nat → String) (dt : DType) (code : Nat)
    (shape data : List Nat) (cals : List Calibration) (ic : Option Calibration)
    (md : TagNode) (parts : List (String × TagNode))
    (h1 : reverseLookup dt = some code)
    (h2 : (dmGet (code : Int)).map (fun e => e.2) = some dt)
    (h3 : decodeData (mkDataNode dt data) = .ok (some (dt, data)))
    (h4 : data.length = shape.prod)
    (h5 : cals.length = shape.length)
    (h6 : 1 ≤ shape.length)
    (h7 : voltageStep (fix_strings dec md) = .ok parts) :
    ∃ doc, save_image ⟨dt, shape, data⟩ cals ic md .stream = .ok doc ∧
      load_image dec doc = .ok ⟨⟨dt, shape, data⟩, cals.map calTriple,
        intensityTriple ic, none, ("imported_properties", fix_strings dec md) :: parts⟩ := by
  have hcals : cals ≠ [] := by
    intro h
    rw [h] at h5
    simp at h5
    omega
  exact ⟨_, save_eq_savedDoc dt code shape data cals ic md h1 h5 hcals,
    load_savedDoc dec dt code shape data cals ic md parts h2 h3 h4 h7⟩

/-- C1: Round trip through the file-level API: for every array of rank 1
to 4 whose element type is a supported native type (including complex64
and complex128), with one axis calibration per axis and any intensity
calibration, saving via `save_image` (assemble) and then loading via
`load_image` (disassemble) returns data, shape, dtype, axis calibrations
and intensity exactly equal to the inputs (the metadata side condition
states that the legacy-voltage extraction of the read path succeeds on
the supplied metadata, which holds for ordinary metadata dictionaries). -/
theorem c1_round_trip (dec : List Nat → String) (a : Ndarray) (cals : List Calibration)
    (ic : Option Calibration) (md : TagNode) (parts : List (String × TagNode))
    (hdt : a.dtype ∈ registryDtypes)
    (hlen : a.data.length = a.shape.prod)
    (hel : ∀ x ∈ a.data, x < 2 ^ (8 * a.dtype.itemsize))
    (hr1 : 1 ≤ a.shape.length) (hr4 : a.shape.length ≤ 4)
    (hc : cals.length = a.shape.length)
    (hmd : voltageStep (fix_strings dec md) = .ok parts) :
    ∃ doc, save_image a cals ic md .stream = .ok doc ∧
      load_image dec doc = .ok ⟨a, cals.map calTriple, intensityTriple ic, none,
        ("imported_properties", fix_strings dec md) :: parts⟩ := by
  obtain ⟨dt, shape, data⟩ := a
  cases dt with
  | int16 =>
    exact load_save dec .int16 1 shape data cals ic md parts (by decide) (by decide) rfl
      hlen hc hr1 hmd
  | float32 =>
    exact load_save dec .float32 2 shape data cals ic md parts (by decide) (by decide) rfl
      hlen hc hr1 hmd
  | complex64 =>
    exact load_save dec .complex64 3 shape data cals ic md parts (by decide) (by decide)
      (decode_mk_complex64 data hel) hlen hc hr1 hmd
  | int8 =>
    exact load_save dec .int8 6 shape data cals ic md parts (by decide) (by decide) rfl
      hlen hc hr1 hmd
  | int32 =>
    exact load_save dec .int32 7 shape data cals ic md parts (by decide) (by decide) rfl
      hlen hc hr1 hmd
  | uint8 => simp [registryDtypes, dm_image_dtypes] at hdt
  | uint16 =>
    exact load_save dec .uint16 10 shape data cals ic md parts (by decide) (by decide) rfl
      hlen hc hr1 hmd
  | uint32 =>
    exact load_save dec .uint32 11 shape data cals ic md parts (by decide) (by decide) rfl
      hlen hc hr1 hmd
  | float64 =>
    exact load_save dec .float64 12 shape data cals ic md parts (by decide) (by decide) rfl
      hlen hc hr1 hmd
  | complex128 =>
    exact load_save dec .complex128 13 shape data cals ic md parts (by decide) (by decide)
      (decode_mk_complex128 data hel) hlen hc hr1 hmd

/-- Witness for C1: the round trip at a concrete int8 array of shape (2)
with one axis calibration and an intensity calibration. -/
theorem c1_round_trip_witness :
    (⟨.int8, [2], [1, 200]⟩ : Ndarray).dtype ∈ registryDtypes ∧
    (⟨.int8, [2], [1, 200]⟩ : Ndarray).data.length = (⟨.int8, [2], [1, 200]⟩ : Ndarray).shape.prod ∧
    (∀ x ∈ (⟨.int8, [2], [1, 200]⟩ : Ndarray).data,
      x < 2 ^ (8 * (⟨.int8, [2], [1, 200]⟩ : Ndarray).dtype.itemsize)) ∧
    voltageStep (fix_strings (fun _ => "") (.mapping [])) = .ok [] ∧
    ∃ doc, save_image ⟨.int8, [2], [1, 200]⟩ [⟨0, 1, "nm"⟩] (some ⟨1, 2, "e"⟩)
        (.mapping []) .stream = .ok doc ∧
      load_image (fun _ => "") doc =
        .ok ⟨⟨.int8, [2], [1, 200]⟩, [⟨0, 1, "nm"⟩].map calTriple,
          intensityTriple (some ⟨1, 2, "e"⟩), none,
          [("imported_properties", fix_strings (fun _ => "") (.mapping []))]⟩ :=
  ⟨by decide, by decide, by decide, rfl,
   c1_round_trip (fun _ => "") ⟨.int8, [2], [1, 200]⟩ [⟨0, 1, "nm"⟩]
     (some ⟨1, 2, "e"⟩) (.mapping []) [] (by decide) (by decide) (by decide)
     (by decide) (by decide) (by decide) rfl⟩

/-- Core inversion packaged with the `Dimensions` observation, shared by
the dimensions-law claim. -/
theorem toTag_inv (dt : DType) (code : Nat) (shape data : List Nat)
    (h1 : reverseLookup dt = some code)
    (h2 : (dmGet (code : Int)).map (fun e => e.2) = some dt)
    (h3 : decodeData (mkDataNode dt data) = .ok (some (dt, data)))
    (h4 : data.length = shape.prod) :
    ∃ es, ndarray_to_imagedatadict ⟨dt, shape, data⟩ = some es ∧
      lookupKey es "Dimensions" =
        some (.sequence (shape.reverse.map (fun n : Nat => TagNode.int (n : Int)))) ∧
      imagedatadict_to_ndarray (.mapping es) = .ok ⟨dt, shape, data⟩ := by
  have hes : ndarray_to_imagedatadict ⟨dt, shape, data⟩ =
      some [("DataType", TagNode.int (code : Int)),
            ("PixelDepth", TagNode.int (dt.itemsize : Int)),
            ("Dimensions", TagNode.sequence (shape.reverse.map (fun n : Nat => TagNode.int (n : Int)))),
            ("Data", mkDataNode dt data)] := by
    simp [ndarray_to_imagedatadict, h1]
  refine ⟨_, hes, ?_, fromTag_toTag dt code shape data _ h1 h2 h3 h4 hes⟩
  simp [lookupKey]

/-- C2: Dimensions law: for every supported array of shape
(d0, ..., d_{n-1}), the ImageData node built by
`ndarray_to_imagedatadict` has `Dimensions` equal to the reverse of
[d0, ..., d_{n-1}], and `imagedatadict_to_ndarray` applied to that node
returns an array equal to the original: the shape is (d0, ..., d_{n-1})
again and the flat element order is returned verbatim, never reversed. -/
theorem c2_dimensions_law (a : Ndarray)
    (hdt : a.dtype ∈ registryDtypes)
    (hlen : a.data.length = a.shape.prod)
    (hel : ∀ x ∈ a.data, x < 2 ^ (8 * a.dtype.itemsize)) :
    ∃ es, ndarray_to_imagedatadict a = some es ∧
      lookupKey es "Dimensions" =
        some (.sequence (a.shape.reverse.map (fun n : Nat => TagNode.int (n : Int)))) ∧
      imagedatadict_to_ndarray (.mapping es) = .ok a := by
  obtain ⟨dt, shape, data⟩ := a
  cases dt with
  | int16 => exact toTag_inv .int16 1 shape data (by decide) (by decide) rfl hlen
  | float32 => exact toTag_inv .float32 2 shape data (by decide) (by decide) rfl hlen
  | complex64 =>
    exact toTag_inv .complex64 3 shape data (by decide) (by decide)
      (decode_mk_complex64 data hel) hlen
  | int8 => exact toTag_inv .int8 6 shape data (by decide) (by decide) rfl hlen
  | int32 => exact toTag_inv .int32 7 shape data (by decide) (by decide) rfl hlen
  | uint8 => simp [registryDtypes, dm_image_dtypes] at hdt
  | uint16 => exact toTag_inv .uint16 10 shape data (by decide) (by decide) rfl hlen
  | uint32 => exact toTag_inv .uint32 11 shape data (by decide) (by decide) rfl hlen
  | float64 => exact toTag_inv .float64 12 shape data (by decide) (by decide) rfl hlen
  | complex128 =>
    exact toTag_inv .complex128 13 shape data (by decide) (by decide)
      (decode_mk_complex128 data hel) hlen

/-- Witness for C2: the dimensions law at a concrete float32 array of
shape (1, 2). -/
theorem c2_dimensions_law_witness :
    (⟨.float32, [1, 2], [5, 6]⟩ : Ndarray).dtype ∈ registryDtypes ∧
    (⟨.float32, [1, 2], [5, 6]⟩ : Ndarray).data.length =
      (⟨.float32, [1, 2], [5, 6]⟩ : Ndarray).shape.prod ∧
    (∀ x ∈ (⟨.float32, [1, 2], [5, 6]⟩ : Ndarray).data,
      x < 2 ^ (8 * (⟨.float32, [1, 2], [5, 6]⟩ : Ndarray).dtype.itemsize)) ∧
    ∃ es, ndarray_to_imagedatadict ⟨.float32, [1, 2], [5, 6]⟩ = some es ∧
      lookupKey es "Dimensions" =
        some (.sequence ([2, 1].map (fun n : Nat => TagNode.int (n : Int)))) ∧
      imagedatadict_to_ndarray (.mapping es) = .ok ⟨.float32, [1, 2], [5, 6]⟩ :=
  ⟨by decide, by decide, by decide,
   c2_dimensions_law ⟨.float32, [1, 2], [5, 6]⟩ (by decide) (by decide) (by decide)⟩

/-- C3: the claim says a string path makes `save_image` create the file
and write the assembled document.  The code instead executes
`return save_image(n, f)` (source line 191) where `n` is an unbound name,
so every string-path call raises `NameError` and writes nothing; the
stream path is never reached with the caller's arguments. -/
theorem c3_string_path (data : Ndarray) (cals : List Calibration)
    (ic : Option Calibration) (md : TagNode) (s : String) :
    save_image data cals ic md (.path s) = .error .nameUndefined := rfl

/-- C4: Document selection: `load_image` reads only the last `ImageList`
entry: a document whose `ImageList` holds any entries followed by `e`
loads exactly as the document holding `e` alone, so with two entries
(thumbnail then full image) the result comes from the second only. -/
theorem c4_last_entry (dec : List Nat → String) (rest : List (String × TagNode))
    (es : List TagNode) (e : TagNode) :
    load_image dec (.mapping (("ImageList", .sequence (es ++ [e])) :: rest)) =
      load_image dec (.mapping (("ImageList", .sequence [e]) :: rest)) := by
  simp [load_image, fix_strings, fixEntries, fixSeq_append, fixSeq, lookupKey,
    List.getLast?_concat]

/-- C5 (amended): for every ImageData node whose declared `PixelDepth`
differs (under Python `==`) from the byte width of the element type
implied by its `DataType` code, `imagedatadict_to_ndarray` fails and no
Image value is produced; the error is `PixelDepthMismatch` whenever the
decoded data's element type matches the `DataType` code (the type check
of source line 79 runs first, so when that check also fails the reported
error is `TypeMismatch` instead). -/
theorem c5_pixel_depth_mismatch (es : List (String × TagNode)) (dtn pd : TagNode)
    (code : Int) (nm : String) (tdt : DType)
    (h1 : lookupKey es "DataType" = some dtn)
    (h2 : tagKeyInt dtn = some code)
    (h3 : dmGet code = some (nm, tdt))
    (h4 : lookupKey es "PixelDepth" = some pd)
    (h5 : pyEqNat pd tdt.itemsize = false) :
    (∀ a, imagedatadict_to_ndarray (.mapping es) ≠ .ok a) ∧
    (∀ arr vals, lookupKey es "Data" = some arr →
      decodeData arr = .ok (some (tdt, vals)) →
      imagedatadict_to_ndarray (.mapping es) = .error .pixelDepthMismatch) := by
  constructor
  · intro a
    rw [imagedatadict_to_ndarray]
    cases hD : lookupKey es "Data" with
    | none => simp
    | some arr =>
      cases hdec : decodeData arr with
      | error e => simp [hdec]
      | ok im =>
        cases im with
        | none => simp [hdec, h1, h2, h3]
        | some p =>
          obtain ⟨dt2, vals⟩ := p
          by_cases hdt : tdt = dt2
          · subst hdt
            simp [hdec, h1, h2, h3, h4, h5]
          · simp [hdec, h1, h2, h3, hdt]
  · intro arr vals hD hdec
    rw [imagedatadict_to_ndarray]
    simp [hD, hdec, h1, h2, h3, h4, h5]

/-- Counterexample for C5 as frozen: a node whose `PixelDepth` (1)
differs from the width implied by its `DataType` (code 1, int16, width 2)
but whose decoded data is int8, so the type check of line 79 fires first
and the failure is `TypeMismatch`, not `PixelDepthMismatch`. -/
theorem c5_counterexample :
    imagedatadict_to_ndarray (.mapping
      [("Data", .rawArray .int8 [0]), ("DataType", .int 1),
       ("PixelDepth", .int 1), ("Dimensions", .sequence [.int 1])]) =
      .error .typeMismatch ∧
    Err.typeMismatch ≠ Err.pixelDepthMismatch ∧
    dmGet 1 = some ("int16", .int16) ∧
    pyEqNat (.int 1) DType.int16.itemsize = false :=
  ⟨rfl, by decide, rfl, rfl⟩

/-- Witness for C5 (amended): a concrete int8 node declaring
`PixelDepth = 2` fails with `PixelDepthMismatch`. -/
theorem c5_pixel_depth_mismatch_witness :
    lookupKey [("Data", TagNode.rawArray .int8 [0]), ("DataType", TagNode.int 9),
      ("PixelDepth", TagNode.int 2), ("Dimensions", TagNode.sequence [TagNode.int 1])]
      "DataType" = some (TagNode.int 9) ∧
    tagKeyInt (TagNode.int 9) = some 9 ∧
    dmGet 9 = some ("int8", .int8) ∧
    lookupKey [("Data", TagNode.rawArray .int8 [0]), ("DataType", TagNode.int 9),
      ("PixelDepth", TagNode.int 2), ("Dimensions", TagNode.sequence [TagNode.int 1])]
      "PixelDepth" = some (TagNode.int 2) ∧
    pyEqNat (TagNode.int 2) DType.int8.itemsize = false ∧
    imagedatadict_to_ndarray (.mapping
      [("Data", TagNode.rawArray .int8 [0]), ("DataType", TagNode.int 9),
       ("PixelDepth", TagNode.int 2), ("Dimensions", TagNode.sequence [TagNode.int 1])]) =
      .error .pixelDepthMismatch :=
  ⟨rfl, rfl, rfl, rfl, rfl,
   (c5_pixel_depth_mismatch
     [("Data", TagNode.rawArray .int8 [0]), ("DataType", TagNode.int 9),
      ("PixelDepth", TagNode.int 2), ("Dimensions", TagNode.sequence [TagNode.int 1])]
     (TagNode.int 9) (TagNode.int 2) 9 "int8" .int8 rfl rfl rfl rfl rfl).2
     (TagNode.rawArray .int8 [0]) [0] rfl rfl⟩

/-- C6: the DataType selection of `ndarray_to_imagedatadict` returns, for
every element type appearing in the registry, the first matching code in
the fixed declaration order of `dm_image_dtypes` (every np.int8 array
gets code 6, never 9 or 14), fails when no code's element type matches
(np.uint8), and consequently `reverseLookup (get code)` is not guaranteed
to return `code` back. -/
theorem c6_reverse_lookup :
    reverseLookup .int8 = some 6 ∧
    reverseLookup .int8 ≠ some 9 ∧
    reverseLookup .int8 ≠ some 14 ∧
    reverseLookup .uint8 = none ∧
    (∀ (d : DType) (c : Nat), reverseLookup d = some c ↔
      ∃ pre nm post, dm_image_dtypes = pre ++ (c, nm, d) :: post ∧
        ∀ e ∈ pre, e.2.2 ≠ d) ∧
    (∀ d : DType, reverseLookup d = none ↔ ∀ e ∈ dm_image_dtypes, e.2.2 ≠ d) ∧
    (∃ (c : Nat) (nm : String) (d : DType),
      dmGet (c : Int) = some (nm, d) ∧ reverseLookup d ≠ some c) := by
  refine ⟨by decide, by decide, by decide, by decide, ?_, ?_, 9, "int8", .int8, by decide, by decide⟩
  · intro d c
    rw [reverseLookup, Option.map_eq_some']
    constructor
    · rintro ⟨e, hf, hc⟩
      rw [find?_first_iff] at hf
      obtain ⟨hp, l1, l2, heq, hall⟩ := hf
      obtain ⟨c1, nm, d1⟩ := e
      simp only at hc hp
      rw [beq_iff_eq] at hp
      subst hp
      subst hc
      exact ⟨l1, nm, l2, heq, fun x hx => by simpa using hall x hx⟩
    · rintro ⟨pre, nm, post, heq, hall⟩
      refine ⟨(c, nm, d), ?_, rfl⟩
      rw [find?_first_iff]
      exact ⟨by simp, pre, post, heq, fun x hx => by simpa using hall x hx⟩
  · intro d
    rw [reverseLookup, Option.map_eq_none', List.find?_eq_none]
    constructor
    · intro h e he
      simpa using h e he
    · intro h e he
      simpa using h e he

/-- Witness for C6: the first-match characterization instantiated at
np.int8 and code 6, yielding the explicit decomposition of the registry. -/
theorem c6_reverse_lookup_witness :
    ∃ pre nm post, dm_image_dtypes = pre ++ (6, nm, DType.int8) :: post ∧
      ∀ e ∈ pre, e.2.2 ≠ DType.int8 :=
  (c6_reverse_lookup.2.2.2.2.1 DType.int8 6).mp c6_reverse_lookup.1

/-- C7: silent degrade on calibration-count mismatch: for every save
where the supplied axis-calibration count differs from the array rank or
the calibration list is empty, `save_image` omits the `Dimension`
calibration entries entirely and does not raise an error; when the count
equals the rank (and the list is nonempty), the `Dimension` entries are
written in reversed axis order. -/
theorem c7_calibration_degrade (a : Ndarray) (cals : List Calibration)
    (ic : Option Calibration) (md : TagNode)
    (hdt : a.dtype ∈ registryDtypes) :
    ∃ doc, save_image a cals ic md .stream = .ok doc ∧
      docDimensionNode doc =
        (if cals ≠ [] ∧ cals.length = a.shape.length
         then some (.sequence (cals.reverse.map calNode)) else none) := by
  obtain ⟨dt, shape, data⟩ := a
  have h1 : ∃ code, reverseLookup dt = some code := by
    cases dt
    case uint8 => simp [registryDtypes, dm_image_dtypes] at hdt
    all_goals exact ⟨_, rfl⟩
  obtain ⟨code, h1⟩ := h1
  have hdd : ndarray_to_imagedatadict ⟨dt, shape, data⟩ =
      some [("DataType", TagNode.int (code : Int)),
            ("PixelDepth", TagNode.int (dt.itemsize : Int)),
            ("Dimensions", TagNode.sequence (shape.reverse.map (fun n : Nat => TagNode.int (n : Int)))),
            ("Data", mkDataNode dt data)] := by
    simp [ndarray_to_imagedatadict, h1]
  by_cases hcond : cals ≠ [] ∧ cals.length = shape.length
  · rcases ic with _ | c
    · simp [save_image, hdd, hcond, docDimensionNode, lookupKey]
    · simp [save_image, hdd, hcond, docDimensionNode, lookupKey]
  · rcases ic with _ | c
    · simp [save_image, hdd, hcond, docDimensionNode, lookupKey]
    · simp [save_image, hdd, hcond, docDimensionNode, lookupKey]

/-- Witness for C7: a concrete save with three calibrations on a
rank-one array omits the `Dimension` entries and still succeeds. -/
theorem c7_calibration_degrade_witness :
    (⟨.int16, [2], [0, 0]⟩ : Ndarray).dtype ∈ registryDtypes ∧
    ∃ doc, save_image ⟨.int16, [2], [0, 0]⟩
        [⟨0, 1, "a"⟩, ⟨0, 1, "b"⟩, ⟨0, 1, "c"⟩] none (.mapping []) .stream = .ok doc ∧
      docDimensionNode doc = none :=
  ⟨by decide,
   by
    have h := c7_calibration_degrade ⟨.int16, [2], [0, 0]⟩
      [⟨0, 1, "a"⟩, ⟨0, 1, "b"⟩, ⟨0, 1, "c"⟩] none (.mapping []) (by decide)
    simpa using h⟩

/-- C8: structured adapter exactness: for every complex64 or complex128
array, including elements whose components are zero, negative-zero or NaN
bit patterns, encoding to the structured array (`mkDataNode`, the
`structarray` branch of `ndarray_to_imagedatadict`) and decoding back
(`decodeData`, the `structarray` branch of `imagedatadict_to_ndarray`)
returns the element type and every element bit pattern unchanged. -/
theorem c8_struct_adapter (a : Ndarray)
    (hc : a.dtype = .complex64 ∨ a.dtype = .complex128)
    (hel : ∀ x ∈ a.data, x < 2 ^ (8 * a.dtype.itemsize)) :
    ∃ tc1 tc2, structRev a.dtype = some (tc1, tc2) ∧
      mkDataNode a.dtype a.data =
        .structArr [tc1, tc2] (a.data.flatMap (toBytes a.dtype.itemsize)) ∧
      decodeData (mkDataNode a.dtype a.data) = .ok (some (a.dtype, a.data)) := by
  rcases hc with h | h
  · rw [h] at hel ⊢
    exact ⟨'f', 'f', rfl, rfl, decode_mk_complex64 a.data hel⟩
  · rw [h] at hel ⊢
    exact ⟨'d', 'd', rfl, rfl, decode_mk_complex128 a.data hel⟩

/-- Witness for C8: a one-element complex64 array whose real component is
the float32 quiet-NaN pattern 0x7FC00000 and whose imaginary component is
the negative-zero pattern 0x80000000 round trips bit-for-bit. -/
theorem c8_struct_adapter_witness :
    ((⟨.complex64, [1], [2143289344 + 2147483648 * 4294967296]⟩ : Ndarray).dtype = .complex64 ∨
      (⟨.complex64, [1], [2143289344 + 2147483648 * 4294967296]⟩ : Ndarray).dtype = .complex128) ∧
    (∀ x ∈ (⟨.complex64, [1], [2143289344 + 2147483648 * 4294967296]⟩ : Ndarray).data,
      x < 2 ^ (8 * (⟨.complex64, [1], [2143289344 + 2147483648 * 4294967296]⟩ : Ndarray).dtype.itemsize)) ∧
    ∃ tc1 tc2,
      structRev DType.complex64 = some (tc1, tc2) ∧
      mkDataNode DType.complex64 [2143289344 + 2147483648 * 4294967296] =
        .structArr [tc1, tc2]
          ([2143289344 + 2147483648 * 4294967296].flatMap (toBytes DType.complex64.itemsize)) ∧
      decodeData (mkDataNode DType.complex64 [2143289344 + 2147483648 * 4294967296]) =
        .ok (some (DType.complex64, [2143289344 + 2147483648 * 4294967296])) :=
  ⟨Or.inl rfl, by decide,
   c8_struct_adapter ⟨.complex64, [1], [2143289344 + 2147483648 * 4294967296]⟩
     (Or.inl rfl) (by decide)⟩

/-- C9: metadata normalization: `fix_strings` decodes any byte-array
node reached by normal recursion through mapping keys other than "Data"
into a text scalar via the UTF-16 decoder applied to the array's machine
bytes, preserves the entire value under any key literally named "Data"
verbatim (including a byte array identical to one decoded elsewhere),
recurses through sequences, and passes every other scalar through
unchanged. -/
theorem c9_fix_strings (dec : List Nat → String) :
    (∀ es k v, (k, v) ∈ es → k ≠ "Data" →
      (k, fix_strings dec v) ∈ fixEntries dec es) ∧
    (∀ es v, ("Data", v) ∈ es → ("Data", v) ∈ fixEntries dec es) ∧
    (∀ l v, v ∈ l → fix_strings dec v ∈ fixSeq dec l) ∧
    (∀ tc vals, fix_strings dec (.rawArray tc vals) =
      .str (dec (vals.flatMap (toBytes tc.itemsize)))) ∧
    (∀ i, fix_strings dec (.int i) = .int i) ∧
    (∀ q, fix_strings dec (.float q) = .float q) ∧
    (∀ s, fix_strings dec (.str s) = .str s) ∧
    (∀ b, fix_strings dec (.bool b) = .bool b) ∧
    (∀ tc vals es2,
      fix_strings dec (.mapping (("x", .rawArray tc vals) :: ("Data", .rawArray tc vals) :: es2)) =
        .mapping (("x", .str (dec (vals.flatMap (toBytes tc.itemsize)))) ::
          ("Data", .rawArray tc vals) :: fixEntries dec es2)) := by
  refine ⟨?_, ?_, ?_, fun tc vals => rfl, fun i => rfl, fun q => rfl, fun s => rfl,
    fun b => rfl, fun tc vals es2 => by simp [fix_strings, fixEntries]⟩
  · intro es k v hmem hk
    induction es with
    | nil => simp at hmem
    | cons kv rest ih =>
      rcases List.mem_cons.mp hmem with h | h
      · subst h
        simp only [fixEntries, if_neg hk]
        exact List.mem_cons_self _ _
      · exact List.mem_cons_of_mem _ (ih h)
  · intro es v hmem
    induction es with
    | nil => simp at hmem
    | cons kv rest ih =>
      rcases List.mem_cons.mp hmem with h | h
      · subst h
        simp only [fixEntries, if_pos rfl]
        exact List.mem_cons_self _ _
      · exact List.mem_cons_of_mem _ (ih h)
  · intro l v hmem
    induction l with
    | nil => simp at hmem
    | cons w rest ih =>
      rcases List.mem_cons.mp hmem with h | h
      · subst h
        exact List.mem_cons_self _ _
      · exact List.mem_cons_of_mem _ (ih h)

/-- Witness for C9: a byte array under a key other than "Data" in a
concrete mapping is decoded in the rebuilt entries. -/
theorem c9_fix_strings_witness :
    ("k", fix_strings (fun _ => "T") (.int 5)) ∈
      fixEntries (fun _ => "T") [("k", TagNode.int 5)] :=
  (c9_fix_strings (fun _ => "T")).1 [("k", TagNode.int 5)] "k" (TagNode.int 5)
    (List.mem_cons_self _ _) (by decide)

/-- C10: in `load_image`, the two legacy voltage property keys
("autostem" carrying "high_tension_v", and "extra_high_tension") are
added exactly when the ImageTags subtree carries a truthy
`ImageScanned.EHT` value; with an EHT present but falsy (such as 0) the
value is not duplicated into either key, while
`properties["imported_properties"]` still carries the full (normalized)
ImageTags subtree. -/
theorem c10_voltage (dec : List Nat → String) (vf vt : TagNode) (q : ℚ)
    (hf : pyTruthy (fix_strings dec vf) = false)
    (ht : pyTruthy (fix_strings dec vt) = true)
    (hq : pyFloat (fix_strings dec vt) = .ok q) :
    load_image dec (minimalDoc (ehtTags vf)) =
      .ok ⟨⟨.int8, [1], [0]⟩, [], (.float 0, .float 1, .str ""), none,
        [("imported_properties", ehtTags (fix_strings dec vf))]⟩ ∧
    load_image dec (minimalDoc (ehtTags vt)) =
      .ok ⟨⟨.int8, [1], [0]⟩, [], (.float 0, .float 1, .str ""), none,
        [("imported_properties", ehtTags (fix_strings dec vt)),
         ("autostem", .mapping [("high_tension_v", .float q)]),
         ("extra_high_tension", .float q)]⟩ := by
  have hmarsh : imagedatadict_to_ndarray (.mapping
      [("DataType", TagNode.int 9), ("PixelDepth", TagNode.int 1),
       ("Dimensions", TagNode.sequence [TagNode.int 1]),
       ("Data", TagNode.rawArray .int8 [0])]) = .ok ⟨.int8, [1], [0]⟩ := rfl
  constructor
  · simp [load_image, minimalDoc, ehtTags, fix_strings, fixEntries, fixSeq, lookupKey,
      hmarsh, buildProperties, voltageStep, hf, extractDims]
  · simp [load_image, minimalDoc, ehtTags, fix_strings, fixEntries, fixSeq, lookupKey,
      hmarsh, buildProperties, voltageStep, ht, hq, extractDims]

/-- Witness for C10: a falsy EHT of 0 adds no legacy keys, a truthy EHT
of 7 adds both. -/
theorem c10_voltage_witness :
    pyTruthy (fix_strings (fun _ => "") (.int 0)) = false ∧
    pyTruthy (fix_strings (fun _ => "") (.int 7)) = true ∧
    pyFloat (fix_strings (fun _ => "") (.int 7)) = .ok 7 ∧
    (load_image (fun _ => "") (minimalDoc (ehtTags (.int 0))) =
      .ok ⟨⟨.int8, [1], [0]⟩, [], (.float 0, .float 1, .str ""), none,
        [("imported_properties", ehtTags (fix_strings (fun _ => "") (.int 0)))]⟩ ∧
    load_image (fun _ => "") (minimalDoc (ehtTags (.int 7))) =
      .ok ⟨⟨.int8, [1], [0]⟩, [], (.float 0, .float 1, .str ""), none,
        [("imported_properties", ehtTags (fix_strings (fun _ => "") (.int 7))),
         ("autostem", .mapping [("high_tension_v", .float 7)]),
         ("extra_high_tension", .float 7)]⟩) :=
  ⟨rfl, rfl, rfl,
   c10_voltage (fun _ => "") (.int 0) (.int 7) 7 rfl rfl rfl⟩
